import Mathlib

/-
Verification development for the calendar server `app_oauth.py`
(multi-user Google-Calendar OAuth app with natural-language event creation).

The embedding below translates the pure, decidable core of the source into
Lean definitions:
  * the per-user credential store backed by files `tokens/<user>.json`
    (`token_path`, `save_credentials_for`, `load_credentials_for`);
  * attendee normalization (`NAME_TO_EMAIL`, `normalize_attendees`);
  * the JSON handling of the text-understanding reply
    (`json_loads`, a model of Python json.loads, and `nlp_to_event_json`);
  * the OAuth handshake state handling of `/auth/<user>` and
    `/oauth2/callback/<user>` (`auth_user`, `oauth2_callback_user`);
  * event dispatch (`dispatch_draft`, `nlp_event`, `multi_dispatch`,
    `make_test_event_multi`).
External collaborators (Google OAuth token exchange, the OpenAI call, the
Calendar insert call) perform network I/O; they are modelled as explicit
inputs (the exchanged credential bytes, the service reply text, a per-user
provider oracle), with the event-insert invocation recorded in the result.
-/

namespace CalendarApp

/-- JSON values as produced by Python json.loads for the replies this app
handles.  Numbers are restricted to the integer fragment: the event replies
the app consumes carry only strings and arrays, never fractional numbers. -/
inductive JValue where
  | null
  | bool (b : Bool)
  | num (n : Int)
  | str (s : String)
  | arr (elems : List JValue)
  | obj (fields : List (String × JValue))

/-- The opening-brace character, by code point. -/
def lbrace : Char := Char.ofNat 123

/-- The closing-brace character, by code point. -/
def rbrace : Char := Char.ofNat 125

/-- JSON whitespace, as skipped by the Python json scanner. -/
def isWs (c : Char) : Bool := c = ' ' || c = '\t' || c = '\n' || c = '\r'

/-- Drop leading JSON whitespace. -/
def skipWs : List Char → List Char
  | [] => []
  | c :: cs => if isWs c then skipWs cs else c :: cs

/-- Value of one hexadecimal digit. -/
def hexVal (c : Char) : Option Nat :=
  if '0' ≤ c ∧ c ≤ '9' then some (c.toNat - 48)
  else if 'a' ≤ c ∧ c ≤ 'f' then some (c.toNat - 87)
  else if 'A' ≤ c ∧ c ≤ 'F' then some (c.toNat - 55)
  else none

/-- Single-character string escapes accepted by JSON. -/
def escChar (c : Char) : Option Char :=
  if c = '"' then some '"'
  else if c = '\\' then some '\\'
  else if c = '/' then some '/'
  else if c = 'b' then some (Char.ofNat 8)
  else if c = 'f' then some (Char.ofNat 12)
  else if c = 'n' then some '\n'
  else if c = 'r' then some '\r'
  else if c = 't' then some '\t'
  else none

/-- Parse the body of a JSON string after the opening quote, returning the
decoded characters and the remaining input.  Unescaped control characters
are rejected, as in the strict mode json.loads uses by default. -/
def parseStringBody : Nat → List Char → Option (List Char × List Char)
  | 0, _ => none
  | _ + 1, [] => none
  | fuel + 1, c :: cs =>
    if c = '"' then some ([], cs)
    else if c = '\\' then
      match cs with
      | [] => none
      | 'u' :: h1 :: h2 :: h3 :: h4 :: cs3 =>
        match hexVal h1, hexVal h2, hexVal h3, hexVal h4 with
        | some v1, some v2, some v3, some v4 =>
          match parseStringBody fuel cs3 with
          | some (rest, rem) =>
            some (Char.ofNat (((v1 * 16 + v2) * 16 + v3) * 16 + v4) :: rest, rem)
          | none => none
        | _, _, _, _ => none
      | e :: cs2 =>
        match escChar e with
        | some ec =>
          match parseStringBody fuel cs2 with
          | some (rest, rem) => some (ec :: rest, rem)
          | none => none
        | none => none
    else if c.toNat < 32 then none
    else
      match parseStringBody fuel cs with
      | some (rest, rem) => some (c :: rest, rem)
      | none => none

/-- Consume a run of decimal digits, accumulating their value. -/
def digitsVal : List Char → Nat → Nat × List Char
  | [], acc => (acc, [])
  | c :: cs, acc =>
    if c.isDigit then digitsVal cs (acc * 10 + (c.toNat - 48)) else (acc, c :: cs)

/-- Reject a fractional or exponent continuation: the integer fragment of the
JSON number grammar is all the replies this app consumes ever carry. -/
def checkNoFrac : List Char → JValue → Option (JValue × List Char)
  | [], v => some (v, [])
  | c :: cs, v => if c = '.' || c = 'e' || c = 'E' then none else some (v, c :: cs)

/-- Parse a JSON integer literal (optional minus, then `0` or a nonzero-led
digit run, per the JSON number grammar). -/
def parseNumber (cs : List Char) : Option (JValue × List Char) :=
  match cs with
  | '-' :: cs1 =>
    match cs1 with
    | [] => none
    | d :: r =>
      if d = '0' then checkNoFrac r (JValue.num 0)
      else if d.isDigit then
        let p := digitsVal r (d.toNat - 48)
        checkNoFrac p.2 (JValue.num (-(p.1 : Int)))
      else none
  | d :: r =>
    if d = '0' then checkNoFrac r (JValue.num 0)
    else if d.isDigit then
      let p := digitsVal r (d.toNat - 48)
      checkNoFrac p.2 (JValue.num (p.1 : Int))
    else none
  | [] => none

/-- Insert a key into an object under construction with dict semantics:
a duplicate key keeps its original position and takes the newer value. -/
def objInsert : List (String × JValue) → String → JValue → List (String × JValue)
  | [], k, v => [(k, v)]
  | (k2, v2) :: rest, k, v =>
    if k2 = k then (k, v) :: rest else (k2, v2) :: objInsert rest k v

mutual

/-- Parse one JSON value (fuel-indexed recursive descent). -/
def parseValue (fuel : Nat) (cs : List Char) : Option (JValue × List Char) :=
  match fuel with
  | 0 => none
  | f + 1 =>
    match skipWs cs with
    | [] => none
    | c :: rest =>
      if c = '"' then
        match parseStringBody (rest.length + 1) rest with
        | some (chars, rem) => some (JValue.str (String.mk chars), rem)
        | none => none
      else if c = lbrace then
        match skipWs rest with
        | [] => none
        | c2 :: rest2 =>
          if c2 = rbrace then some (JValue.obj [], rest2)
          else parseObjMembers f (c2 :: rest2) []
      else if c = '[' then
        match skipWs rest with
        | [] => none
        | c2 :: rest2 =>
          if c2 = ']' then some (JValue.arr [], rest2)
          else parseArrElems f (c2 :: rest2) []
      else if c = 't' then
        match rest with
        | 'r' :: 'u' :: 'e' :: rem => some (JValue.bool true, rem)
        | _ => none
      else if c = 'f' then
        match rest with
        | 'a' :: 'l' :: 's' :: 'e' :: rem => some (JValue.bool false, rem)
        | _ => none
      else if c = 'n' then
        match rest with
        | 'u' :: 'l' :: 'l' :: rem => some (JValue.null, rem)
        | _ => none
      else if c = '-' || c.isDigit then parseNumber (c :: rest)
      else none

/-- Parse the members of a JSON object after the opening brace
(the input is known not to start with a closing brace). -/
def parseObjMembers (fuel : Nat) (cs : List Char) (acc : List (String × JValue)) :
    Option (JValue × List Char) :=
  match fuel with
  | 0 => none
  | f + 1 =>
    match skipWs cs with
    | [] => none
    | c :: rest =>
      if c = '"' then
        match parseStringBody (rest.length + 1) rest with
        | some (kchars, rem) =>
          match skipWs rem with
          | ':' :: rem2 =>
            match parseValue f rem2 with
            | some (v, rem3) =>
              match skipWs rem3 with
              | ',' :: rem4 => parseObjMembers f rem4 (objInsert acc (String.mk kchars) v)
              | c4 :: rem4 =>
                if c4 = rbrace then
                  some (JValue.obj (objInsert acc (String.mk kchars) v), rem4)
                else none
              | [] => none
            | none => none
          | _ => none
        | none => none
      else none

/-- Parse the elements of a JSON array after the opening bracket
(the input is known not to start with a closing bracket). -/
def parseArrElems (fuel : Nat) (cs : List Char) (acc : List JValue) :
    Option (JValue × List Char) :=
  match fuel with
  | 0 => none
  | f + 1 =>
    match parseValue f cs with
    | some (v, rem) =>
      match skipWs rem with
      | ',' :: rem2 => parseArrElems f rem2 (acc ++ [v])
      | ']' :: rem2 => some (JValue.arr (acc ++ [v]), rem2)
      | _ => none
    | none => none

end

/-- Model of Python json.loads on the fragment this app exchanges:
parse exactly one JSON value and require only whitespace after it,
returning none exactly when json.loads would raise JSONDecodeError. -/
def json_loads (s : String) : Option JValue :=
  match parseValue (2 * s.length + 8) s.data with
  | some (v, rem) => if (skipWs rem).isEmpty then some v else none
  | none => none

/-- Model of nlp_to_event_json: the prompt construction and the OpenAI call
are external I/O, so the service reply text `content` is taken as input;
the function then runs json.loads on it and, on JSONDecodeError, falls back
to the empty dict (source comment: return an empty event conservatively,
handled upstream).  No error value is ever produced and no brace-delimited
span is searched for. -/
def nlp_to_event_json (content : String) : JValue :=
  match json_loads content with
  | some v => v
  | none => JValue.obj []

/-- Python dict .get on a parsed object (keys are unique after objInsert). -/
def jget (fields : List (String × JValue)) (k : String) : Option JValue :=
  match fields.find? (fun p => p.1 == k) with
  | some p => some p.2
  | none => none

/-- Python truthiness of a JSON value. -/
def jtruthy : JValue → Bool
  | JValue.null => false
  | JValue.bool b => b
  | JValue.num n => n != 0
  | JValue.str s => s != ""
  | JValue.arr l => !l.isEmpty
  | JValue.obj l => !l.isEmpty

/-- Python truthiness of a dict lookup (a missing key is falsy). -/
def jtruthyOpt : Option JValue → Bool
  | none => false
  | some v => jtruthy v

-- ─────────────────────────────
-- Credential store (tokens/<user>.json)
-- ─────────────────────────────

/-- The token directory as a flat file system: pairs of path and contents.
Grant material is kept as its opaque serialized bytes, matching the store
contract (creds.to_json written on save, parsed back on load). -/
abbrev CredStore := List (String × String)

/-- Path of the token file of one user. -/
def token_path (user : String) : String := "tokens/" ++ user ++ ".json"

/-- Overwrite-or-create a file. -/
def store_write : CredStore → String → String → CredStore
  | [], p, v => [(p, v)]
  | (q, w) :: rest, p, v =>
    if q = p then (p, v) :: rest else (q, w) :: store_write rest p v

/-- Read a file, none when it does not exist. -/
def store_read : CredStore → String → Option String
  | [], _ => none
  | (q, w) :: rest, p => if q = p then some w else store_read rest p

/-- save_credentials_for: write the serialized grant to tokens/<user>.json,
replacing any existing record. -/
def save_credentials_for (user : String) (creds : String) (fs : CredStore) : CredStore :=
  store_write fs (token_path user) creds

/-- load_credentials_for: none when tokens/<user>.json does not exist, else
the stored grant (deserialization of the opaque bytes is the identity on
this representation). -/
def load_credentials_for (user : String) (fs : CredStore) : Option String :=
  store_read fs (token_path user)

-- ─────────────────────────────
-- Attendee resolver
-- ─────────────────────────────

/-- The static name-to-address table embedded in the source. -/
def NAME_TO_EMAIL : List (String × String) :=
  [("alice", "alice_실제이메일@example.com"),
   ("bob", "bob_실제이메일@example.com"),
   ("엘리스", "alice_실제이메일@example.com"),
   ("밥", "bob_실제이메일@example.com")]

/-- NAME_TO_EMAIL.get(k): lookup in the static table. -/
def lookupEmail (k : String) : Option String :=
  match NAME_TO_EMAIL.find? (fun p => p.1 == k) with
  | some p => some p.2
  | none => none

/-- One attendee entry of the event body (a dict with an email key). -/
structure Attendee where
  email : String
deriving DecidableEq

/-- Drop leading whitespace characters. -/
def dropWs : List Char → List Char
  | [] => []
  | c :: cs => if c.isWhitespace then dropWs cs else c :: cs

/-- Python str.strip on the whitespace this app encounters (space, tab,
carriage return, line feed). -/
def strip (s : String) : String :=
  String.mk ((dropWs ((dropWs s.data).reverse)).reverse)

/-- Python str.lower on the identifiers this app encounters: the table keys
are lowercase ASCII or caseless Korean, so ASCII case folding is the
behaviour exercised. -/
def lower (s : String) : String := String.mk (s.data.map Char.toLower)

/-- Python membership test of a character in a string. -/
def strContains (s : String) (c : Char) : Bool := s.data.contains c

/-- The body of the normalize_attendees loop for one item: strip, then keep
a literal address containing an at sign, else map the lowercased name
through the table with the stripped item itself as the default. -/
def normalize_one (x : String) : Attendee :=
  if strContains (strip x) '@' then { email := strip x }
  else { email := ((lookupEmail (lower (strip x))).getD (strip x)) }

/-- The accumulator loop of normalize_attendees (out.append per item). -/
def normalize_loop (out : List Attendee) : List String → List Attendee
  | [] => out
  | x :: rest => normalize_loop (out ++ [normalize_one x]) rest

/-- normalize_attendees: `items or []` maps a missing list to the empty
list, then the loop appends one entry per item. -/
def normalize_attendees (items : Option (List String)) : List Attendee :=
  normalize_loop [] (items.getD [])

-- ─────────────────────────────
-- OAuth handshake (auth_user, oauth2_callback_user)
-- ─────────────────────────────

/-- The session cookie of one client, holding the single anti-forgery state
slot written by the auth routes. -/
structure Session where
  state : Option String
deriving DecidableEq

/-- The route /auth/<user>: build the provider authorization URL (external)
and overwrite the single session state slot with the freshly generated
anti-forgery token.  The token generation is the external randomness of the
authorization library, so the fresh token is taken as input. -/
def auth_user (_user : String) (sess : Session) (freshState : String) : Session :=
  { sess with state := some freshState }

/-- The responses the callback route can produce. -/
inductive CallbackResponse where
  | redirectToAuth (user : String)
  | redirectHome
  | success (user : String)
deriving DecidableEq

/-- Result of a callback request: the response plus the session and the
credential store after the request. -/
structure CallbackResult where
  response : CallbackResponse
  session : Session
  store : CredStore
deriving DecidableEq

/-- Python truthiness of request.args.get applied to the state query
parameter: falsy when the parameter is absent and also when it is present
with an empty value. -/
def stateFalsy : Option String → Bool
  | none => true
  | some s => s == ""

/-- The route /oauth2/callback/<user>.  A request whose state query
parameter is falsy — absent, or present with an empty value — is redirected
to /auth/<user>.  Otherwise the flow is rebuilt with the state taken from
the session, and fetch_token validates it against the state carried by the
callback: with a stored, non-falsy state that differs from the callback
state, the library raises MismatchingStateError, which the registered error
handler turns into a redirect to the home page; the store is untouched.
(With no stored state, or a stored empty state, the library skips the
comparison.)  On a passing check the code is exchanged with the provider
(external, the exchanged grant bytes are taken as input) and the grant is
saved for the user. -/
def oauth2_callback_user (user : String) (cbState : Option String)
    (exchangedCreds : String) (sess : Session) (fs : CredStore) : CallbackResult :=
  if stateFalsy cbState then
    { response := CallbackResponse.redirectToAuth user, session := sess, store := fs }
  else
    match cbState with
    | none =>
      { response := CallbackResponse.redirectToAuth user, session := sess, store := fs }
    | some s =>
      match sess.state with
      | some stored =>
        if stored != "" && s != stored then
          { response := CallbackResponse.redirectHome, session := sess, store := fs }
        else
          { response := CallbackResponse.success user, session := sess,
            store := save_credentials_for user exchangedCreds fs }
      | none =>
        { response := CallbackResponse.success user, session := sess,
          store := save_credentials_for user exchangedCreds fs }

-- ─────────────────────────────
-- Event dispatch (nlp_event, make_test_event_multi)
-- ─────────────────────────────

/-- The event body sent to the calendar insert call: summary, the dateTime
fields of start and end, and the normalized attendees. -/
structure EventBody where
  summary : JValue
  startDateTime : Option JValue
  endDateTime : Option JValue
  attendees : List Attendee

/-- Outcome of one /nlp_event/<user> request.  `inserted` records that the
calendar provider insert call was invoked, and with which event body;
the other outcomes return before any provider call. -/
inductive Outcome where
  | notAuthorized (user : String)
  | missingText
  | incompleteDraft
  | inserted (user : String) (event : EventBody)

/-- The list of strings Python would iterate over when normalize_attendees
receives this JSON value for its attendees (after `items or []`):
none models a raised TypeError or AttributeError (a truthy non-iterable, or
an element without strip). -/
def strList : List JValue → Option (List String)
  | [] => some []
  | JValue.str s :: rest =>
    match strList rest with
    | some l => some (s :: l)
    | none => none
  | _ :: _ => none

/-- Iteration behaviour of `for x in items or []` per JSON value shape:
falsy values give the empty iteration, a string iterates its characters,
an array must hold strings, a truthy dict iterates its keys. -/
def attendeesOfJValue : JValue → Option (List String)
  | JValue.null => some []
  | JValue.bool b => if b then none else some []
  | JValue.num n => if n == 0 then some [] else none
  | JValue.str s => some (s.data.map (fun c => String.mk [c]))
  | JValue.arr vs => strList vs
  | JValue.obj fs => some (fs.map (fun p => p.1))

/-- Lines 297 to 319 of the source, after the parsed reply is in hand:
read start and end, default a falsy summary to the placeholder, build the
event body (normalizing attendees, which can raise on ill-typed values,
modelled by none), then reject when start or end is falsy, and otherwise
invoke the provider insert with the built body.  A non-dict parsed value
makes the .get calls raise (none). -/
def dispatch_draft (user : String) (parsed : JValue) : Option Outcome :=
  match parsed with
  | JValue.obj fields =>
    let start_iso := jget fields "start"
    let end_iso := jget fields "end"
    let summary : JValue :=
      match jget fields "summary" with
      | some v => if jtruthy v then v else JValue.str "회의"
      | none => JValue.str "회의"
    let attendees_raw : JValue := (jget fields "attendees").getD (JValue.arr [])
    match attendeesOfJValue attendees_raw with
    | none => none
    | some items =>
      let event : EventBody :=
        { summary := summary, startDateTime := start_iso, endDateTime := end_iso,
          attendees := normalize_attendees (some items) }
      if !(jtruthyOpt start_iso) || !(jtruthyOpt end_iso) then
        some Outcome.incompleteDraft
      else
        some (Outcome.inserted user event)
  | _ => none

/-- The route /nlp_event/<user>: require a stored credential (else the
log-in-first reply), require a non-empty text field, then run the extractor
on the service reply (taken as input, see nlp_to_event_json) and dispatch
the parsed draft. -/
def nlp_event (fs : CredStore) (user : String) (text : String) (reply : String) :
    Option Outcome :=
  match load_credentials_for user fs with
  | none => some (Outcome.notAuthorized user)
  | some _ =>
    if text = "" then some Outcome.missingText
    else dispatch_draft user (nlp_to_event_json reply)

/-- Per-user outcome line of the multi-user test route. -/
inductive MultiOutcome where
  | noToken (user : String)
  | created (user : String) (link : String)
deriving DecidableEq

/-- The loop of /make_test_event_multi over a user list: a user without a
stored credential gets a failure line and the loop continues; for a user
with a credential the provider insert is invoked (the provider is an
external oracle from user to either a raised error or an event link), and a
raised provider error propagates out of the request, discarding the
accumulated lines. -/
def multi_dispatch (fs : CredStore) (provider : String → Except String String) :
    List String → Except String (List MultiOutcome)
  | [] => Except.ok []
  | user :: rest =>
    match load_credentials_for user fs with
    | none =>
      match multi_dispatch fs provider rest with
      | Except.ok rs => Except.ok (MultiOutcome.noToken user :: rs)
      | Except.error e => Except.error e
    | some _ =>
      match provider user with
      | Except.error e => Except.error e
      | Except.ok link =>
        match multi_dispatch fs provider rest with
        | Except.ok rs => Except.ok (MultiOutcome.created user link :: rs)
        | Except.error e => Except.error e

/-- The route /make_test_event_multi with its hardcoded user list. -/
def make_test_event_multi (fs : CredStore) (provider : String → Except String String) :
    Except String (List MultiOutcome) :=
  multi_dispatch fs provider ["alice", "bob"]

-- ─────────────────────────────
-- Auxiliary definitions for the statements below
-- ─────────────────────────────

/-- Modelled from the spec wording of the attendee resolver, for refinement
comparison with the implementation: strip the identifier, treat one that
contains an at sign as a literal address unchanged, otherwise substitute the
case-insensitive table mapping, or pass the identifier through unchanged
when no mapping exists. -/
def attendee_spec_rule (x : String) : Attendee :=
  if strContains (strip x) '@' then { email := strip x }
  else
    match lookupEmail (lower (strip x)) with
    | some a => { email := a }
    | none => { email := strip x }

/-- Lexicographic comparison of character lists; on ISO 8601 timestamps
sharing a day and a UTC offset this is chronological order. -/
def strLtChars : List Char → List Char → Bool
  | [], [] => false
  | [], _ :: _ => true
  | _ :: _, [] => false
  | a :: as, b :: bs => if a < b then true else if b < a then false else strLtChars as bs

/-- Lexicographic comparison of strings. -/
def strLt (a b : String) : Bool := strLtChars a.data b.data

/-- Store fixture: both test users hold a grant. -/
def fs_both : CredStore := [(token_path "alice", "ca"), (token_path "bob", "cb")]

/-- Provider oracle that raises for alice and succeeds for bob. -/
def provider_alice_fails : String → Except String String :=
  fun u => if u = "alice" then Except.error "quota exceeded" else Except.ok "https://cal/evt1"

/-- Store fixture of the spec example: only bob holds a grant. -/
def fs_bob_only : CredStore := [(token_path "bob", "cb")]

-- ─────────────────────────────
-- Helper lemmas
-- ─────────────────────────────

/-- Appending strings appends their character data. -/
lemma string_data_append (a b : String) : (a ++ b).data = a.data ++ b.data := rfl

/-- Strings with equal character data are equal. -/
lemma string_of_data_eq {u v : String} (h : u.data = v.data) : u = v :=
  congrArg String.mk h

/-- Distinct users get distinct token files. -/
lemma token_path_inj {u v : String} (h : token_path u = token_path v) : u = v := by
  have hd := congrArg String.data h
  simp only [token_path, string_data_append] at hd
  have h1 := List.append_cancel_right hd
  have h2 := List.append_cancel_left h1
  exact string_of_data_eq h2

/-- Reading a freshly written file yields the written contents. -/
lemma store_read_write_self (fs : CredStore) (p v : String) :
    store_read (store_write fs p v) p = some v := by
  induction fs with
  | nil => simp [store_write, store_read]
  | cons hd tl ih =>
    obtain ⟨q, w⟩ := hd
    by_cases h : q = p
    · simp [store_write, store_read, h]
    · simp [store_write, store_read, h, ih]

/-- Writing one file leaves every other file unchanged. -/
lemma store_read_write_other (fs : CredStore) (p q v : String) (h : p ≠ q) :
    store_read (store_write fs p v) q = store_read fs q := by
  induction fs with
  | nil => simp [store_write, store_read, h]
  | cons hd tl ih =>
    obtain ⟨r, w⟩ := hd
    by_cases h2 : r = p
    · subst h2
      simp [store_write, store_read, h]
    · simp [store_write, store_read, h2, ih]

/-- The normalize loop appends one mapped entry per input item. -/
lemma normalize_loop_eq (items : List String) :
    ∀ out, normalize_loop out items = out ++ items.map normalize_one := by
  induction items with
  | nil => intro out; simp [normalize_loop]
  | cons x rest ih => intro out; simp [normalize_loop, ih]

/-- The loop body agrees pointwise with the spec rule. -/
lemma normalize_one_eq_rule (x : String) : normalize_one x = attendee_spec_rule x := by
  unfold normalize_one attendee_spec_rule
  cases h : lookupEmail (lower (strip x)) <;> simp [h]

/-- Inversion of a dispatched insert: the provider is reached only with
well-typed attendees and truthy start and end, and the event body carries
exactly the drafted fields. -/
lemma dispatch_draft_inserted_inv {user u2 : String} {fields : List (String × JValue)}
    {ev : EventBody}
    (h : dispatch_draft user (JValue.obj fields) = some (Outcome.inserted u2 ev)) :
    ∃ items : List String,
      attendeesOfJValue ((jget fields "attendees").getD (JValue.arr [])) = some items ∧
      jtruthyOpt (jget fields "start") = true ∧ jtruthyOpt (jget fields "end") = true ∧
      u2 = user ∧
      ev = { summary :=
               (match jget fields "summary" with
                | some v => if jtruthy v then v else JValue.str "회의"
                | none => JValue.str "회의"),
             startDateTime := jget fields "start", endDateTime := jget fields "end",
             attendees := normalize_attendees (some items) } := by
  cases hatt : attendeesOfJValue ((jget fields "attendees").getD (JValue.arr [])) with
  | none =>
    simp only [dispatch_draft, hatt] at h
    exact Option.noConfusion h
  | some items =>
    simp only [dispatch_draft, hatt] at h
    split at h
    · injection h with h2
      exact Outcome.noConfusion h2
    · rename_i hc
      injection h with h2
      injection h2 with hu hev
      simp only [Bool.or_eq_true, Bool.not_eq_true', not_or] at hc
      refine ⟨items, rfl, ?_, ?_, hu.symm, hev.symm⟩
      · have := hc.1
        simpa using this
      · have := hc.2
        simpa using this

-- ─────────────────────────────
-- Claims
-- ─────────────────────────────

/-- Claim C1: a callback that carries no anti-forgery state token — the
state query parameter is absent, or present with an empty value, the two
falsy forms of the source guard — is redirected to restart at /auth/<user>;
a callback carrying a (non-empty) token that differs from the (non-empty)
stored token is rejected through the MismatchingStateError handler with a
redirect to the home page.  In both cases the returned credential store is
exactly the input store, so no grant of any user is written or
overwritten. -/
theorem callback_state_errors (user : String) (cb : Option String) (creds : String)
    (sess : Session) (fs : CredStore) :
    ((cb = none ∨ cb = some "") →
      oauth2_callback_user user cb creds sess fs =
        { response := CallbackResponse.redirectToAuth user, session := sess, store := fs }) ∧
    (∀ s t : String, cb = some s → s ≠ "" → sess.state = some t → t ≠ "" → s ≠ t →
      oauth2_callback_user user cb creds sess fs =
        { response := CallbackResponse.redirectHome, session := sess, store := fs }) := by
  constructor
  · rintro (h | h) <;> subst h <;> rfl
  · intro s t hcb hs0 hst ht hs
    subst hcb
    simp [oauth2_callback_user, stateFalsy, hs0, hst, ht, hs]

/-- Witness for C1 at a concrete user, token pair and store, covering both
falsy forms of the missing token. -/
theorem callback_state_errors_witness :
    oauth2_callback_user "alice" none "creds" { state := some "tok1" } [] =
      { response := CallbackResponse.redirectToAuth "alice",
        session := { state := some "tok1" }, store := [] } ∧
    oauth2_callback_user "alice" (some "") "creds" { state := some "tok1" } [] =
      { response := CallbackResponse.redirectToAuth "alice",
        session := { state := some "tok1" }, store := [] } ∧
    oauth2_callback_user "alice" (some "tok2") "creds" { state := some "tok1" } [] =
      { response := CallbackResponse.redirectHome,
        session := { state := some "tok1" }, store := [] } :=
  ⟨(callback_state_errors "alice" none "creds" { state := some "tok1" } []).1 (Or.inl rfl),
   (callback_state_errors "alice" (some "") "creds" { state := some "tok1" } []).1
     (Or.inr rfl),
   (callback_state_errors "alice" (some "tok2") "creds" { state := some "tok1" } []).2
     "tok2" "tok1" rfl (by decide) rfl (by decide) (by decide)⟩

/-- Claim C2: loading a user after saving a grant for that user returns that
grant, replacing any earlier record; loading from an empty store returns the
absent signal rather than raising; and saving for one user does not disturb
any other user, so a never-saved user stays absent. -/
theorem store_roundtrip :
    (∀ (u g : String) (fs : CredStore),
        load_credentials_for u (save_credentials_for u g fs) = some g) ∧
    (∀ u : String, load_credentials_for u ([] : CredStore) = none) ∧
    (∀ (u v g : String) (fs : CredStore), u ≠ v →
        load_credentials_for u (save_credentials_for v g fs) = load_credentials_for u fs) := by
  refine ⟨?_, ?_, ?_⟩
  · intro u g fs
    exact store_read_write_self fs (token_path u) g
  · intro u
    rfl
  · intro u v g fs h
    exact store_read_write_other fs (token_path v) (token_path u) g
      (fun hx => h (token_path_inj hx).symm)

/-- Witness for C2 at concrete users and grants. -/
theorem store_roundtrip_witness :
    load_credentials_for "alice" (save_credentials_for "alice" "grant1" []) = some "grant1" ∧
    load_credentials_for "carol" ([] : CredStore) = none ∧
    load_credentials_for "alice"
        (save_credentials_for "bob" "g2" (save_credentials_for "alice" "grant1" [])) =
      some "grant1" := by
  refine ⟨store_roundtrip.1 "alice" "grant1" [], store_roundtrip.2.1 "carol", ?_⟩
  rw [store_roundtrip.2.2 "alice" "bob" "g2" (save_credentials_for "alice" "grant1" [])
    (by decide)]
  exact store_roundtrip.1 "alice" "grant1" []

/-- Claim C3: a second begin overwrites the single anti-forgery state slot,
so a callback carrying the token generated by the first begin is rejected
as a state mismatch and leaves the credential store unchanged, producing no
grant.  Hypotheses: the two freshly generated tokens are distinct and
non-empty, which the generation in the authorization library guarantees. -/
theorem begin_twice_state_mismatch (user : String) (t1 t2 creds : String)
    (sess0 : Session) (fs : CredStore) (h0 : t1 ≠ "") (h1 : t1 ≠ t2) (h2 : t2 ≠ "") :
    oauth2_callback_user user (some t1) creds
        (auth_user user (auth_user user sess0 t1) t2) fs =
      { response := CallbackResponse.redirectHome,
        session := auth_user user (auth_user user sess0 t1) t2, store := fs } := by
  simp [oauth2_callback_user, stateFalsy, auth_user, h0, h1, h2]

/-- Witness for C3 at concrete distinct tokens. -/
theorem begin_twice_state_mismatch_witness :
    oauth2_callback_user "bob" (some "token1") "creds"
        (auth_user "bob" (auth_user "bob" { state := none } "token1") "token2") [] =
      { response := CallbackResponse.redirectHome,
        session := auth_user "bob" (auth_user "bob" { state := none } "token1") "token2",
        store := [] } :=
  begin_twice_state_mismatch "bob" "token1" "token2" "creds" { state := none } []
    (by decide) (by decide) (by decide)

/-- Claim C4, counterexample: a reply wrapping the JSON object in prose is
not parsed by locating the brace-delimited span and raises no
MalformedExtraction signal either; the extractor silently returns the empty
draft instead. -/
theorem extract_prose_counterexample :
    nlp_to_event_json "알겠습니다. \x7b\"summary\": \"회의\", \"start\": \"2025-09-02T13:00:00+09:00\", \"end\": \"2025-09-02T15:00:00+09:00\"\x7d 입니다." = JValue.obj [] ∧
    JValue.obj ([] : List (String × JValue)) ≠
      JValue.obj [("summary", JValue.str "회의"),
        ("start", JValue.str "2025-09-02T13:00:00+09:00"),
        ("end", JValue.str "2025-09-02T15:00:00+09:00")] := by
  refine ⟨rfl, ?_⟩
  intro h
  injection h with h2
  exact List.noConfusion h2

/-- Claim C4, amended: a parseable reply is returned as parsed (shown also
at the exact stub reply of the spec test), while any unparseable reply,
prose-wrapped ones included, yields the empty draft with no error signal;
the failure then surfaces downstream, where dispatching the empty draft is
rejected for a missing start and end. -/
theorem extract_swallow_amended :
    (∀ (s : String) (v : JValue), json_loads s = some v → nlp_to_event_json s = v) ∧
    (∀ s : String, json_loads s = none → nlp_to_event_json s = JValue.obj []) ∧
    nlp_to_event_json "\x7b\"summary\":\"회의\",\"start\":\"2025-09-02T13:00:00+09:00\",\"end\":\"2025-09-02T15:00:00+09:00\",\"attendees\":[]\x7d" =
      JValue.obj [("summary", JValue.str "회의"),
        ("start", JValue.str "2025-09-02T13:00:00+09:00"),
        ("end", JValue.str "2025-09-02T15:00:00+09:00"),
        ("attendees", JValue.arr [])] ∧
    dispatch_draft "alice" (JValue.obj []) = some Outcome.incompleteDraft := by
  refine ⟨?_, ?_, rfl, rfl⟩
  · intro s v h
    simp [nlp_to_event_json, h]
  · intro s h
    simp [nlp_to_event_json, h]

/-- Witness for C4 at a concrete unparseable reply. -/
theorem extract_swallow_amended_witness :
    nlp_to_event_json "JSON not found" = JValue.obj [] :=
  extract_swallow_amended.2.1 "JSON not found" rfl

/-- Claim C5, counterexample: a draft whose end lies strictly before its
start is not rejected; the provider insert is invoked with the out-of-order
times, since the code checks only presence of start and end. -/
theorem dispatch_order_counterexample :
    dispatch_draft "bob" (JValue.obj [("summary", JValue.str "회의"),
        ("start", JValue.str "2025-09-02T15:00:00+09:00"),
        ("end", JValue.str "2025-09-02T13:00:00+09:00")]) =
      some (Outcome.inserted "bob"
        { summary := JValue.str "회의",
          startDateTime := some (JValue.str "2025-09-02T15:00:00+09:00"),
          endDateTime := some (JValue.str "2025-09-02T13:00:00+09:00"),
          attendees := [] }) ∧
    strLt "2025-09-02T13:00:00+09:00" "2025-09-02T15:00:00+09:00" = true :=
  ⟨rfl, by decide⟩

/-- Claim C5, amended: whenever dispatch reaches the provider insert, both
start and end were present and truthy and are the ones placed in the event
body; presence is the only validated invariant, no ordering of start
against end is checked. -/
theorem dispatch_presence_amended (user u2 : String) (fields : List (String × JValue))
    (ev : EventBody)
    (h : dispatch_draft user (JValue.obj fields) = some (Outcome.inserted u2 ev)) :
    jtruthyOpt (jget fields "start") = true ∧ jtruthyOpt (jget fields "end") = true ∧
    ev.startDateTime = jget fields "start" ∧ ev.endDateTime = jget fields "end" := by
  obtain ⟨items, _, hs, he, _, hev⟩ := dispatch_draft_inserted_inv h
  exact ⟨hs, he, by rw [hev], by rw [hev]⟩

/-- Witness for C5 at a concrete dispatched draft. -/
theorem dispatch_presence_amended_witness :
    jtruthyOpt (jget [("start", JValue.str "s"), ("end", JValue.str "e")] "start") = true ∧
    jtruthyOpt (jget [("start", JValue.str "s"), ("end", JValue.str "e")] "end") = true ∧
    (EventBody.mk (JValue.str "회의") (some (JValue.str "s")) (some (JValue.str "e"))
        []).startDateTime =
      jget [("start", JValue.str "s"), ("end", JValue.str "e")] "start" ∧
    (EventBody.mk (JValue.str "회의") (some (JValue.str "s")) (some (JValue.str "e"))
        []).endDateTime =
      jget [("start", JValue.str "s"), ("end", JValue.str "e")] "end" :=
  dispatch_presence_amended "bob" "bob" [("start", JValue.str "s"), ("end", JValue.str "e")]
    (EventBody.mk (JValue.str "회의") (some (JValue.str "s")) (some (JValue.str "e")) []) rfl

/-- Claim C6: for a user holding a grant and a drafted reply whose start or
end is missing or falsy (with well-typed attendees), the request signals the
incomplete-draft rejection; and regardless of the grant, the provider
insert is never invoked for such a draft. -/
theorem dispatch_incomplete (fs : CredStore) (user text reply : String)
    (fields : List (String × JValue)) (items : List String)
    (hparse : nlp_to_event_json reply = JValue.obj fields)
    (hatt : attendeesOfJValue ((jget fields "attendees").getD (JValue.arr [])) = some items)
    (hse : jtruthyOpt (jget fields "start") = false ∨
      jtruthyOpt (jget fields "end") = false) :
    (∀ (u2 : String) (ev : EventBody),
      nlp_event fs user text reply ≠ some (Outcome.inserted u2 ev)) ∧
    (load_credentials_for user fs ≠ none → text ≠ "" →
      nlp_event fs user text reply = some Outcome.incompleteDraft) := by
  have hd : dispatch_draft user (nlp_to_event_json reply) = some Outcome.incompleteDraft := by
    rw [hparse]
    simp only [dispatch_draft, hatt]
    rcases hse with h | h <;> simp [h]
  constructor
  · intro u2 ev
    unfold nlp_event
    cases hl : load_credentials_for user fs with
    | none => simp
    | some c =>
      by_cases ht : text = ""
      · simp [ht]
      · simp [ht, hd]
  · intro hl ht
    unfold nlp_event
    cases hlc : load_credentials_for user fs with
    | none => exact absurd hlc hl
    | some c => simp [ht, hd]

/-- Witness for C6: an authorized user with a reply lacking start and end is
rejected as incomplete. -/
theorem dispatch_incomplete_witness :
    nlp_event [(token_path "bob", "tok")] "bob" "회의 등록" "\x7b\"summary\": \"회의\"\x7d" =
      some Outcome.incompleteDraft :=
  (dispatch_incomplete [(token_path "bob", "tok")] "bob" "회의 등록"
      "\x7b\"summary\": \"회의\"\x7d" [("summary", JValue.str "회의")] [] rfl rfl
      (Or.inl rfl)).2 (by simp [load_credentials_for, token_path, store_read]) (by simp)

/-- Claim C7, counterexample: with both users holding grants, a
provider-side failure for the first user propagates out of the request
and aborts the loop, so no per-user outcome list is reported at all and the
second user is blocked. -/
theorem multi_provider_failure_counterexample :
    make_test_event_multi fs_both provider_alice_fails = Except.error "quota exceeded" ∧
    ¬ ∃ rs : List MultiOutcome,
        make_test_event_multi fs_both provider_alice_fails = Except.ok rs := by
  have hrun : make_test_event_multi fs_both provider_alice_fails =
      Except.error "quota exceeded" := rfl
  refine ⟨hrun, ?_⟩
  rintro ⟨rs, h⟩
  rw [hrun] at h
  exact Except.noConfusion h

/-- Claim C7, amended: when the provider raises for no user that holds a
grant, the per-user invocations are independent — one outcome is collected
per user at the position of that user, a user without a grant gets the
no-token outcome there without blocking or rolling back the others, and a
user with a grant gets the success outcome carrying the provider
reference. -/
theorem multi_dispatch_isolates (fs : CredStore) (provider : String → Except String String) :
    ∀ users : List String,
      (∀ u, u ∈ users → load_credentials_for u fs ≠ none →
        ∃ l, provider u = Except.ok l) →
      ∃ rs, multi_dispatch fs provider users = Except.ok rs ∧
        rs.length = users.length ∧
        (∀ (i : Nat) (u : String), users[i]? = some u →
          (load_credentials_for u fs = none ∧
            rs[i]? = some (MultiOutcome.noToken u)) ∨
          (∃ c l, load_credentials_for u fs = some c ∧ provider u = Except.ok l ∧
            rs[i]? = some (MultiOutcome.created u l))) := by
  intro users
  induction users with
  | nil =>
    intro _
    refine ⟨[], rfl, rfl, ?_⟩
    intro i u hu
    simp at hu
  | cons user rest ih =>
    intro h
    obtain ⟨rs, hrs, hlen, hchar⟩ := ih (fun u hu hc => h u (List.mem_cons_of_mem _ hu) hc)
    cases hload : load_credentials_for user fs with
    | none =>
      refine ⟨MultiOutcome.noToken user :: rs, ?_, by simp [hlen], ?_⟩
      · simp [multi_dispatch, hload, hrs]
      · intro i u hu
        cases i with
        | zero =>
          simp only [List.getElem?_cons_zero, Option.some.injEq] at hu
          subst hu
          exact Or.inl ⟨hload, by simp⟩
        | succ j =>
          simp only [List.getElem?_cons_succ] at hu ⊢
          exact hchar j u hu
    | some c =>
      obtain ⟨l, hl⟩ := h user (List.mem_cons_self _ _)
        (by rw [hload]; exact fun hx => Option.noConfusion hx)
      refine ⟨MultiOutcome.created user l :: rs, ?_, by simp [hlen], ?_⟩
      · simp [multi_dispatch, hload, hl, hrs]
      · intro i u hu
        cases i with
        | zero =>
          simp only [List.getElem?_cons_zero, Option.some.injEq] at hu
          subst hu
          exact Or.inr ⟨c, l, hload, hl, by simp⟩
        | succ j =>
          simp only [List.getElem?_cons_succ] at hu ⊢
          exact hchar j u hu

/-- Witness for C7 at the spec example: alice without a grant, bob with one,
a succeeding provider — the report holds the no-token outcome for alice at
her position and the created outcome with the provider reference for bob at
his. -/
theorem multi_dispatch_isolates_witness :
    ∃ rs, multi_dispatch fs_bob_only (fun _ => Except.ok "https://cal/evt1")
        ["alice", "bob"] = Except.ok rs ∧
      rs.length = (["alice", "bob"] : List String).length ∧
      (∀ (i : Nat) (u : String), (["alice", "bob"] : List String)[i]? = some u →
        (load_credentials_for u fs_bob_only = none ∧
          rs[i]? = some (MultiOutcome.noToken u)) ∨
        (∃ c l, load_credentials_for u fs_bob_only = some c ∧
          (Except.ok "https://cal/evt1" : Except String String) = Except.ok l ∧
          rs[i]? = some (MultiOutcome.created u l))) :=
  multi_dispatch_isolates fs_bob_only (fun _ => Except.ok "https://cal/evt1")
    ["alice", "bob"] (fun _u _ _ => ⟨"https://cal/evt1", rfl⟩)

/-- Claim C8: the resolver maps each identifier by the spec rule — strip,
keep a literal address containing an at sign, otherwise substitute the
case-insensitive table mapping or pass the identifier through — in order,
without deduplication and without raising; shown also at the concrete spec
example. -/
theorem normalize_spec_map :
    (∀ items : List String,
      normalize_attendees (some items) = items.map attendee_spec_rule) ∧
    normalize_attendees (some ["alice", "x@y.com", "밥"]) =
      [{ email := "alice_실제이메일@example.com" }, { email := "x@y.com" },
       { email := "bob_실제이메일@example.com" }] := by
  constructor
  · intro items
    have h1 : normalize_attendees (some items) = normalize_loop [] items := rfl
    have h2 : normalize_one = attendee_spec_rule := funext normalize_one_eq_rule
    rw [h1, normalize_loop_eq items [], h2]
    simp
  · decide

/-- Claim C10: the resolver is total and length-preserving — a missing or
empty input yields the empty result, each element yields exactly the entry
of its own mapping, and an identifier that is empty after stripping yields
an entry with the empty address rather than being skipped. -/
theorem normalize_total :
    normalize_attendees none = [] ∧
    normalize_attendees (some []) = [] ∧
    (∀ items : List String,
      (normalize_attendees (some items)).length = items.length) ∧
    (∀ (items : List String) (i : Nat),
      (normalize_attendees (some items))[i]? = (items[i]?).map normalize_one) ∧
    (∀ x : String, strip x = "" → normalize_one x = { email := "" }) := by
  refine ⟨rfl, rfl, ?_, ?_, ?_⟩
  · intro items
    have h1 : normalize_attendees (some items) = normalize_loop [] items := rfl
    rw [h1, normalize_loop_eq items []]
    simp
  · intro items i
    have h1 : normalize_attendees (some items) = normalize_loop [] items := rfl
    rw [h1, normalize_loop_eq items []]
    simp [List.getElem?_map]
  · intro x h
    simp only [normalize_one, h]
    decide

/-- Witness for C10 at a concrete all-whitespace identifier. -/
theorem normalize_total_witness : normalize_one "   " = { email := "" } :=
  normalize_total.2.2.2.2 "   " (by decide)

/-- Claim C9, counterexample: a supplied empty-string summary is not used as
given; the falsy check replaces it with the placeholder before dispatch. -/
theorem summary_empty_counterexample :
    dispatch_draft "bob" (JValue.obj [("summary", JValue.str ""),
        ("start", JValue.str "2025-09-02T13:00:00+09:00"),
        ("end", JValue.str "2025-09-02T15:00:00+09:00")]) =
      some (Outcome.inserted "bob"
        { summary := JValue.str "회의",
          startDateTime := some (JValue.str "2025-09-02T13:00:00+09:00"),
          endDateTime := some (JValue.str "2025-09-02T15:00:00+09:00"),
          attendees := [] }) ∧
    JValue.str "회의" ≠ JValue.str "" := by
  refine ⟨rfl, ?_⟩
  intro h
  injection h with h2
  exact absurd h2 (by decide)

/-- Claim C9, amended: a summary that is absent or falsy (such as the empty
string) is replaced by the fixed placeholder, and a truthy supplied summary
is used as given in the dispatched event. -/
theorem summary_default_amended (user u2 : String) (fields : List (String × JValue))
    (ev : EventBody)
    (h : dispatch_draft user (JValue.obj fields) = some (Outcome.inserted u2 ev)) :
    ((jget fields "summary" = none ∨ jget fields "summary" = some (JValue.str "")) →
      ev.summary = JValue.str "회의") ∧
    (∀ v : JValue, jget fields "summary" = some v → jtruthy v = true → ev.summary = v) := by
  obtain ⟨items, _, _, _, _, hev⟩ := dispatch_draft_inserted_inv h
  constructor
  · rintro (hs | hs) <;> rw [hev] <;> simp [hs, jtruthy]
  · intro v hs hv
    rw [hev]
    simp [hs, hv]

/-- Witness for C9 at a concrete dispatched draft without a summary. -/
theorem summary_default_amended_witness :
    (EventBody.mk (JValue.str "회의") (some (JValue.str "s")) (some (JValue.str "e"))
        []).summary = JValue.str "회의" :=
  (summary_default_amended "bob" "bob" [("start", JValue.str "s"), ("end", JValue.str "e")]
      (EventBody.mk (JValue.str "회의") (some (JValue.str "s")) (some (JValue.str "e")) [])
      rfl).1 (Or.inl rfl)

end CalendarApp
